import Mathlib

/-!
Verification development for the `federation` package of `roderm/graphql-go`:
a shallow embedding of `schema_printer.go`, `directives.go` and the federated
schema composer (`NewFederatedSchema`), together with theorems about the
claims of the specification.

Conventions of the embedding:
* Go maps keyed by name (`graphql.FieldDefinitionMap`, the schema type map)
  are association lists `List (String × _)`; an iteration order of the map is
  the order of the list, and map assignment is `setAssoc` (replace or append).
* Go panics are modelled by `Option`/`Except` results (`none`/`.error`).
* Go string comparison (`sort.Strings`, `sort.Slice` with `<` on names) is
  byte-wise lexicographic; `strLe` implements it on code points, which agrees
  with the byte-wise UTF-8 order because UTF-8 preserves code-point order.
-/

/-! ## Byte-wise string order (Go `<=` on strings), executable and provable -/

def lexLe : List Char → List Char → Bool
  | [], _ => true
  | _ :: _, [] => false
  | c :: cs, d :: ds =>
    if c.toNat < d.toNat then true
    else if d.toNat < c.toNat then false
    else lexLe cs ds

def strLe (a b : String) : Bool := lexLe a.data b.data

theorem char_toNat_inj {c d : Char} (h : c.toNat = d.toNat) : c = d :=
  Char.eq_of_val_eq (UInt32.toNat.inj h)

theorem string_data_inj {a b : String} (h : a.data = b.data) : a = b := by
  cases a
  cases b
  exact congrArg String.mk h

theorem string_append_empty (s : String) : s ++ "" = s := by
  cases s with
  | mk l => exact congrArg String.mk (List.append_nil l)

theorem string_empty_append (s : String) : "" ++ s = s := by
  cases s with
  | mk l => rfl

theorem lexLe_total : ∀ a b : List Char, lexLe a b = true ∨ lexLe b a = true
  | [], _ => Or.inl rfl
  | _ :: _, [] => Or.inr rfl
  | c :: cs, d :: ds => by
    rcases Nat.lt_trichotomy c.toNat d.toNat with h | h | h
    · left
      simp [lexLe, h]
    · have ih := lexLe_total cs ds
      simpa [lexLe, h, Nat.lt_irrefl] using ih
    · right
      simp [lexLe, h, Nat.lt_asymm h]

theorem lexLe_trans : ∀ a b c : List Char,
    lexLe a b = true → lexLe b c = true → lexLe a c = true
  | [], _, _, _, _ => rfl
  | _ :: _, [], _, h₁, _ => by simp [lexLe] at h₁
  | _ :: _, _ :: _, [], _, h₂ => by simp [lexLe] at h₂
  | a :: as, b :: bs, c :: cs, h₁, h₂ => by
    by_cases hab : a.toNat < b.toNat
    · by_cases hbc : b.toNat < c.toNat
      · simp [lexLe, show a.toNat < c.toNat from lt_trans hab hbc]
      · by_cases hcb : c.toNat < b.toNat
        · simp [lexLe, hbc, hcb] at h₂
        · simp [lexLe, show a.toNat < c.toNat by omega]
    · by_cases hba : b.toNat < a.toNat
      · simp [lexLe, hab, hba] at h₁
      · by_cases hbc : b.toNat < c.toNat
        · simp [lexLe, show a.toNat < c.toNat by omega]
        · by_cases hcb : c.toNat < b.toNat
          · simp [lexLe, hbc, hcb] at h₂
          · simp only [lexLe, hab, hba, if_neg, if_false] at h₁
            simp only [lexLe, hbc, hcb, if_neg, if_false] at h₂
            have hac : ¬ a.toNat < c.toNat := by omega
            have hca : ¬ c.toNat < a.toNat := by omega
            simp only [lexLe, hac, hca, if_neg, if_false]
            exact lexLe_trans as bs cs (by simpa [hab, hba] using h₁) (by simpa [hbc, hcb] using h₂)

theorem lexLe_antisymm : ∀ a b : List Char,
    lexLe a b = true → lexLe b a = true → a = b
  | [], [], _, _ => rfl
  | [], _ :: _, _, h₂ => by simp [lexLe] at h₂
  | _ :: _, [], h₁, _ => by simp [lexLe] at h₁
  | a :: as, b :: bs, h₁, h₂ => by
    by_cases hab : a.toNat < b.toNat <;> by_cases hba : b.toNat < a.toNat <;>
      simp [lexLe, hab, hba] at h₁ h₂
    · omega
    · have hchar : a = b := char_toNat_inj (by omega)
      have htail := lexLe_antisymm as bs h₁ h₂
      rw [hchar, htail]

theorem strLe_total (a b : String) : strLe a b = true ∨ strLe b a = true :=
  lexLe_total a.data b.data

theorem strLe_trans {a b c : String} (h₁ : strLe a b = true) (h₂ : strLe b c = true) :
    strLe a c = true :=
  lexLe_trans a.data b.data c.data h₁ h₂

theorem strLe_antisymm {a b : String} (h₁ : strLe a b = true) (h₂ : strLe b a = true) :
    a = b :=
  string_data_inj (lexLe_antisymm a.data b.data h₁ h₂)

/-! ## Sorting by name (`sort.Strings`, `sort.Slice` with name comparison) -/

instance strLeKeyDecidable (key : α → String) :
    DecidableRel (fun a b : α => strLe (key a) (key b) = true) :=
  fun a b => inferInstanceAs (Decidable (strLe (key a) (key b) = true))

instance strLeKeyTotal (key : α → String) :
    IsTotal α (fun a b : α => strLe (key a) (key b) = true) :=
  ⟨fun a b => strLe_total (key a) (key b)⟩

instance strLeKeyTrans (key : α → String) :
    IsTrans α (fun a b : α => strLe (key a) (key b) = true) :=
  ⟨fun _ _ _ h₁ h₂ => strLe_trans h₁ h₂⟩

def sortByName (key : α → String) (l : List α) : List α :=
  List.insertionSort (fun a b : α => strLe (key a) (key b) = true) l

def sortStrings (l : List String) : List String :=
  sortByName id l

theorem sortByName_perm (key : α → String) (l : List α) : (sortByName key l).Perm l :=
  List.perm_insertionSort _ l

theorem sortByName_sorted (key : α → String) (l : List α) :
    (sortByName key l).Sorted (fun a b : α => strLe (key a) (key b) = true) :=
  List.sorted_insertionSort _ l

theorem sortByName_congr (key : α → String) {l₁ l₂ : List α} (h : l₁.Perm l₂)
    (hnd : (l₂.map key).Nodup) : sortByName key l₁ = sortByName key l₂ := by
  haveI : IsAntisymm α (fun a b : α => strLe (key a) (key b) = true ∧ key a ≠ key b) :=
    ⟨fun a b h₁ h₂ => absurd (strLe_antisymm h₁.1 h₂.1) h₁.2⟩
  have hperm : (sortByName key l₁).Perm (sortByName key l₂) :=
    (sortByName_perm key l₁).trans (h.trans (sortByName_perm key l₂).symm)
  have hnd₁ : ((sortByName key l₁).map key).Nodup :=
    (((sortByName_perm key l₁).map key).trans (h.map key)).nodup_iff.mpr hnd
  have hnd₂ : ((sortByName key l₂).map key).Nodup :=
    ((sortByName_perm key l₂).map key).nodup_iff.mpr hnd
  have hs₁ : (sortByName key l₁).Sorted (fun a b : α => strLe (key a) (key b) = true ∧ key a ≠ key b) :=
    (sortByName_sorted key l₁).and (List.pairwise_map.mp hnd₁)
  have hs₂ : (sortByName key l₂).Sorted (fun a b : α => strLe (key a) (key b) = true ∧ key a ≠ key b) :=
    (sortByName_sorted key l₂).and (List.pairwise_map.mp hnd₂)
  exact List.eq_of_perm_of_sorted hperm hs₁ hs₂

theorem sortStrings_congr {l₁ l₂ : List String} (h : l₁.Perm l₂) (hnd : l₂.Nodup) :
    sortStrings l₁ = sortStrings l₂ :=
  sortByName_congr id h (by simpa using hnd)

/-! ## Association lists: the embedding of Go maps keyed by name -/

def lookupAssoc (m : List (String × β)) (k : String) : Option β :=
  match m with
  | [] => none
  | (k', v) :: t => if k' = k then some v else lookupAssoc t k

def setAssoc (m : List (String × β)) (k : String) (v : β) : List (String × β) :=
  match m with
  | [] => [(k, v)]
  | (k', v') :: t => if k' = k then (k', v) :: t else (k', v') :: setAssoc t k v

theorem lookupAssoc_setAssoc_self (m : List (String × β)) (k : String) (v : β) :
    lookupAssoc (setAssoc m k v) k = some v := by
  induction m with
  | nil => simp [setAssoc, lookupAssoc]
  | cons p t ih =>
    by_cases h : p.1 = k
    · simp [setAssoc, lookupAssoc, h]
    · simp [setAssoc, lookupAssoc, h, ih]

theorem lookupAssoc_setAssoc_ne (m : List (String × β)) {k k' : String} (v : β)
    (h : k' ≠ k) : lookupAssoc (setAssoc m k v) k' = lookupAssoc m k' := by
  have hk : ¬ k = k' := fun he => h he.symm
  induction m with
  | nil => simp [setAssoc, lookupAssoc, hk]
  | cons p t ih =>
    rcases p with ⟨pk, pv⟩
    by_cases hp : pk = k
    · subst hp
      simp [setAssoc, lookupAssoc, hk]
    · by_cases hp' : pk = k'
      · simp [setAssoc, lookupAssoc, hp, hp', h]
      · simp [setAssoc, lookupAssoc, hp, hp', ih]

theorem lookupAssoc_mem {m : List (String × β)} {k : String} {v : β}
    (h : lookupAssoc m k = some v) : (k, v) ∈ m := by
  induction m with
  | nil => simp [lookupAssoc] at h
  | cons p t ih =>
    rcases p with ⟨pk, pv⟩
    by_cases hp : pk = k
    · subst hp
      simp only [lookupAssoc, if_pos] at h
      have hv : pv = v := Option.some.inj h
      subst hv
      exact List.mem_cons_self _ _
    · simp only [lookupAssoc, hp, if_false, if_neg] at h
      exact List.mem_cons_of_mem _ (ih h)

theorem lookupAssoc_perm {m₁ m₂ : List (String × β)} (h : m₁.Perm m₂)
    (hnd : (m₂.map Prod.fst).Nodup) (k : String) :
    lookupAssoc m₁ k = lookupAssoc m₂ k := by
  induction h with
  | nil => rfl
  | cons p _ ih =>
    rename_i t₁ t₂ _
    have hnd' : (t₂.map Prod.fst).Nodup := by
      simp only [List.map_cons, List.nodup_cons] at hnd
      exact hnd.2
    by_cases hp : p.1 = k
    · simp [lookupAssoc, hp]
    · simp [lookupAssoc, hp, ih hnd']
  | swap p q t =>
    have hpq : q.1 ≠ p.1 := by
      simp only [List.map_cons, List.nodup_cons, List.mem_cons] at hnd
      exact fun he => hnd.1 (Or.inl he.symm)
    by_cases hp : p.1 = k
    · by_cases hq : q.1 = k
      · exact absurd (hq.trans hp.symm) hpq
      · simp [lookupAssoc, hp, hq]
    · by_cases hq : q.1 = k
      · simp [lookupAssoc, hp, hq]
      · simp [lookupAssoc, hp, hq]
  | trans h₁ h₂ ih₁ ih₂ =>
    rename_i l₁ l₂ l₃
    have hnd₂ : (l₂.map Prod.fst).Nodup := ((h₂.map Prod.fst).nodup_iff).mpr hnd
    exact (ih₁ hnd₂).trans (ih₂ hnd)

/-! ## String helpers used by the printer -/

def joinSep (sep : String) : List String → String
  | [] => ""
  | [x] => x
  | x :: xs => x ++ sep ++ joinSep sep xs

def concatAll : List String → String
  | [] => ""
  | x :: xs => x ++ concatAll xs

def spaces (n : Nat) : String := String.mk (List.replicate n ' ')

/-- Sequencing of fallible printing steps over a list (a Go loop whose body
can panic), with the panic modelled by `none`. -/
def mapMOption (f : α → Option β) : List α → Option (List β)
  | [] => some []
  | a :: t => do
    let b ← f a
    let bs ← mapMOption f t
    pure (b :: bs)

def hexDigit (n : Nat) : Char :=
  if n < 10 then Char.ofNat (48 + n) else Char.ofNat (87 + n)

def goQuoteChar (c : Char) : String :=
  if c = '\\' then "\\\\"
  else if c = '"' then "\\\""
  else if c = '\n' then "\\n"
  else if c = '\t' then "\\t"
  else if c = '\r' then "\\r"
  else if c = '\x07' then "\\a"
  else if c = '\x08' then "\\b"
  else if c = '\x0c' then "\\f"
  else if c = '\x0b' then "\\v"
  else if c.toNat < 32 ∨ c.toNat = 127 then
    String.mk ['\\', 'x', hexDigit (c.toNat / 16), hexDigit (c.toNat % 16)]
  else String.mk [c]

def goQuote (s : String) : String :=
  "\"" ++ concatAll (s.data.map goQuoteChar) ++ "\""

def containsNewline (s : String) : Bool := s.data.any (fun c => c = '\n')

def splitLines (s : String) : List String :=
  (s.data.splitOn '\n').map String.mk

def trimSpaceChar (c : Char) : Bool :=
  c = ' ' ∨ c = '\t' ∨ c = '\n' ∨ c = '\r' ∨ c = '\x0b' ∨ c = '\x0c'

def trimSpace (s : String) : String :=
  String.mk (((s.data.dropWhile trimSpaceChar).reverse.dropWhile trimSpaceChar).reverse)

def nameIsIntrospection (n : String) : Bool :=
  match n.data with
  | '_' :: '_' :: _ => true
  | _ => false

/-! ## Data model of the graphql type system, as used by the federation package -/

/-- Applied-directive argument values are arbitrary Go values inspected by
reflection in `printAppliedDirectiveArgumentValue`; the values the package
works with are strings, booleans, integers, (nested) slices, and nil. -/
inductive ArgValue where
  | nilValue
  | str (s : String)
  | boolean (b : Bool)
  | intValue (n : Int)
  | list (elems : List ArgValue)

structure AppliedDirectiveArgument where
  name : String
  value : ArgValue

structure AppliedDirective where
  name : String
  args : List AppliedDirectiveArgument

/-- A reference to a type, as stored in field/argument `Type` slots.
`tname` is graphql-go's `Name()`/`String()` on these wrappers:
a `List` renders as `[inner]` and a `NonNull` as `inner!`. -/
inductive TypeRef where
  | named (n : String)
  | listOf (ofType : TypeRef)
  | nonNull (ofType : TypeRef)

def TypeRef.tname : TypeRef → String
  | .named n => n
  | .listOf t => "[" ++ t.tname ++ "]"
  | .nonNull t => t.tname ++ "!"

def TypeRef.isList : TypeRef → Bool
  | .listOf _ => true
  | _ => false

/-- A directive-definition argument (graphql.Argument): `Name()` and `Type`.
Default values are not printed by the printer and are omitted. -/
structure Argument where
  name : String
  type : TypeRef

structure DirectiveDef where
  name : String
  description : String
  args : List Argument
  locations : List String
  repeatable : Bool

structure FieldDefinition where
  name : String
  description : String
  args : List Argument
  type : TypeRef
  deprecationReason : String
  appliedDirectives : List AppliedDirective

/-- graphql.FieldDefinitionMap: a map from field name to definition. -/
abbrev FieldDefinitionMap := List (String × FieldDefinition)

structure InputFieldDef where
  name : String
  description : String
  type : TypeRef
  appliedDirectives : List AppliedDirective

abbrev InputObjectFieldMap := List (String × InputFieldDef)

structure ObjectDef where
  name : String
  description : String
  interfaces : List String
  fields : FieldDefinitionMap
  appliedDirectives : List AppliedDirective
  extend : Bool

structure InterfaceDef where
  name : String
  description : String
  fields : FieldDefinitionMap
  appliedDirectives : List AppliedDirective

structure EnumValueDef where
  name : String
  description : String
  deprecationReason : String
  appliedDirectives : List AppliedDirective

structure EnumDef where
  name : String
  description : String
  values : List EnumValueDef
  appliedDirectives : List AppliedDirective

structure InputObjectDef where
  name : String
  description : String
  fields : InputObjectFieldMap
  appliedDirectives : List AppliedDirective

/-- graphql.Union: `Types()` is the slice of member object types. -/
structure UnionDef where
  name : String
  description : String
  types : List ObjectDef
  appliedDirectives : List AppliedDirective

structure ScalarDef where
  name : String
  description : String
  appliedDirectives : List AppliedDirective

inductive GqlType where
  | enum (e : EnumDef)
  | inputObject (i : InputObjectDef)
  | iface (i : InterfaceDef)
  | object (o : ObjectDef)
  | union (u : UnionDef)
  | scalar (s : ScalarDef)

def GqlType.tname : GqlType → String
  | .enum e => e.name
  | .inputObject i => i.name
  | .iface i => i.name
  | .object o => o.name
  | .union u => u.name
  | .scalar s => s.name

/-- graphql.Schema after build: root types, the type map (registry keyed by
name), directive definitions and schema-block applied directives. -/
structure Schema where
  query : Option ObjectDef
  mutation : Option ObjectDef
  subscription : Option ObjectDef
  typeMap : List (String × GqlType)
  directives : List DirectiveDef
  appliedDirectives : List AppliedDirective

/-! ## The SDL printer (`schema_printer.go`)

Go panics (nil query type in `printSchemaDefinition`; `value[0]` on an empty
printed-value slice and reflection on a nil argument value in
`printAppliedDirective`/`printAppliedDirectiveArgumentValue`) are modelled as
`none`. All other paths are total. -/

def printDescription (desc : String) (indent : Nat) : String :=
  if desc = "" then ""
  else
    (if indent > 0 then spaces indent else "") ++
    (if containsNewline desc then
      "\"\"\"\n" ++
      concatAll ((splitLines desc).map (fun d => spaces indent ++ d ++ "\n")) ++
      spaces indent ++ "\"\"\"\n"
    else "\"" ++ desc ++ "\"\n")

def sortDirectiveDefinitions (directives : List DirectiveDef) : List DirectiveDef :=
  sortByName DirectiveDef.name directives

def printDirectiveDefinitionArg (arg : Argument) : String :=
  if arg.type.isList then arg.name ++ ": [" ++ arg.type.tname ++ "]"
  else arg.name ++ ": " ++ arg.type.tname

def printDirectiveDefinition (directive : DirectiveDef) : String :=
  printDescription directive.description 0 ++
  "directive @" ++ directive.name ++
  (if directive.args.isEmpty then ""
   else "(" ++ joinSep ", " (directive.args.map printDirectiveDefinitionArg) ++ ")") ++
  (if directive.repeatable then " repeatable" else "") ++
  " on " ++ joinSep " | " directive.locations ++ "\n\n"

def printDirectiveDefinitions (directives : List DirectiveDef) : String :=
  concatAll ((sortDirectiveDefinitions directives).map printDirectiveDefinition)

mutual
def printAppliedDirectiveArgumentValue : ArgValue → Option (List String)
  | .nilValue => none
  | .str s => some [goQuote s]
  | .boolean b => some [if b then "true" else "false"]
  | .intValue n => some [toString n]
  | .list l => printAppliedDirectiveArgumentValues l
def printAppliedDirectiveArgumentValues : List ArgValue → Option (List String)
  | [] => some []
  | v :: vs => do
    let a ← printAppliedDirectiveArgumentValue v
    let b ← printAppliedDirectiveArgumentValues vs
    pure (a ++ b)
end

def printAppliedDirectiveArgument (arg : AppliedDirectiveArgument) : Option String :=
  match printAppliedDirectiveArgumentValue arg.value with
  | none => none
  | some [] => none
  | some [v] => some (arg.name ++ ": " ++ v)
  | some vs => some (arg.name ++ ": [" ++ joinSep ", " vs ++ "]")

def printAppliedDirective (applied : AppliedDirective) : Option String :=
  if applied.args.isEmpty then some ("@" ++ applied.name)
  else
    (mapMOption printAppliedDirectiveArgument applied.args).map
      (fun args => "@" ++ applied.name ++ "(" ++ joinSep ", " args ++ ")")

def sortAppliedDirectives (appliedDirectives : List AppliedDirective) : List AppliedDirective :=
  sortByName AppliedDirective.name appliedDirectives

/-- The `@deprecated(reason: %q)` text synthesized by `printAppliedDirectives`
when a deprecation reason is set (empty reason renders nothing). -/
def deprecatedDirectiveNote (deprecationReason : String) : String :=
  if deprecationReason = "" then ""
  else " @deprecated(reason: " ++ goQuote deprecationReason ++ ")"

def printAppliedDirectives (appliedDirectives : List AppliedDirective)
    (deprecationReason : String) : Option String :=
  if appliedDirectives.isEmpty then some (deprecatedDirectiveNote deprecationReason)
  else
    (mapMOption printAppliedDirective (sortAppliedDirectives appliedDirectives)).map
      (fun parts => deprecatedDirectiveNote deprecationReason ++
        concatAll (parts.map (fun p => " " ++ p)))

def printSchemaDefinition (schema : Schema) : Option String := do
  let ad ← printAppliedDirectives schema.appliedDirectives ""
  match schema.query with
  | none => none
  | some q =>
    pure ("schema" ++ ad ++ " \x7b\n" ++ "  query: " ++ q.name ++ "\n" ++
      (match schema.mutation with
       | some m => "  mutation: " ++ m.name ++ "\n"
       | none => "") ++
      (match schema.subscription with
       | some s => "  subscription: " ++ s.name ++ "\n"
       | none => "") ++
      "\x7d\n\n")

def printEnumValueDefinition (enumValue : EnumValueDef) : Option String := do
  let ad ← printAppliedDirectives enumValue.appliedDirectives enumValue.deprecationReason
  pure (printDescription enumValue.description 2 ++ "  " ++ enumValue.name ++ ad ++ "\n")

def printEnumDefinition (enum : EnumDef) : Option String := do
  let ad ← printAppliedDirectives enum.appliedDirectives ""
  let vals ← mapMOption printEnumValueDefinition (sortByName EnumValueDef.name enum.values)
  pure (printDescription enum.description 0 ++ "enum " ++ enum.name ++ ad ++
    " \x7b\n" ++ concatAll vals ++ "\x7d\n\n")

def printEnumDefinitions (enums : List EnumDef) : Option String :=
  (mapMOption printEnumDefinition (sortByName EnumDef.name enums)).map concatAll

def printInputObjectFieldDefinition (field : InputFieldDef) : Option String := do
  let ad ← printAppliedDirectives field.appliedDirectives ""
  pure (printDescription field.description 2 ++ "  " ++ field.name ++ ": " ++
    field.type.tname ++ ad ++ "\n")

def printInputObjectFieldDefinitions (inputFields : InputObjectFieldMap) : Option String :=
  (mapMOption (fun k =>
    match lookupAssoc inputFields k with
    | some field => printInputObjectFieldDefinition field
    | none => some "") (sortStrings (inputFields.map Prod.fst))).map concatAll

def printInputObjectDefinition (inputObject : InputObjectDef) : Option String := do
  let ad ← printAppliedDirectives inputObject.appliedDirectives ""
  let flds ← printInputObjectFieldDefinitions inputObject.fields
  pure (printDescription inputObject.description 0 ++ "input " ++ inputObject.name ++
    ad ++ " \x7b\n" ++ flds ++ "\x7d\n\n")

def printInputObjectDefinitions (inputObjects : List InputObjectDef) : Option String :=
  (mapMOption printInputObjectDefinition (sortByName InputObjectDef.name inputObjects)).map concatAll

def printFieldDefinition (field : FieldDefinition) : Option String := do
  let ad ← printAppliedDirectives field.appliedDirectives field.deprecationReason
  pure (printDescription field.description 2 ++ "  " ++ field.name ++
    (if field.args.isEmpty then ""
     else "(" ++ joinSep ", " (field.args.map (fun arg => arg.name ++ ": " ++ arg.type.tname)) ++ ")") ++
    ": " ++ field.type.tname ++ ad ++ "\n")

def printFieldDefinitions (fieldDefinitionMap : FieldDefinitionMap) : Option String :=
  (mapMOption (fun k =>
    match lookupAssoc fieldDefinitionMap k with
    | some field => printFieldDefinition field
    | none => some "") (sortStrings (fieldDefinitionMap.map Prod.fst))).map concatAll

def printInterfaceDefinition (intf : InterfaceDef) : Option String := do
  let ad ← printAppliedDirectives intf.appliedDirectives ""
  let flds ← printFieldDefinitions intf.fields
  pure (printDescription intf.description 0 ++ "interface " ++ intf.name ++ ad ++
    " \x7b\n" ++ flds ++ "\x7d\n\n")

def printInterfaceDefinitions (interfaces : List InterfaceDef) : Option String :=
  (mapMOption printInterfaceDefinition (sortByName InterfaceDef.name interfaces)).map concatAll

def printObjectDefinition (object : ObjectDef) : Option String := do
  let ad ← printAppliedDirectives object.appliedDirectives ""
  let flds ← printFieldDefinitions object.fields
  pure (printDescription object.description 0 ++ "type " ++ object.name ++
    (if object.interfaces.isEmpty then ""
     else " implements " ++ joinSep ", " object.interfaces) ++
    ad ++ " \x7b\n" ++ flds ++ "\x7d\n\n")

def printObjectDefinitions (objects : List ObjectDef) : Option String :=
  (mapMOption printObjectDefinition (sortByName ObjectDef.name objects)).map concatAll

def printUnionDefinition (union : UnionDef) : Option String := do
  let ad ← printAppliedDirectives union.appliedDirectives ""
  pure (printDescription union.description 0 ++ "union " ++ union.name ++ ad ++
    " = " ++ joinSep " | " (sortStrings (union.types.map ObjectDef.name)) ++ "\n\n")

def printUnionDefinitions (unions : List UnionDef) : Option String :=
  (mapMOption printUnionDefinition (sortByName UnionDef.name unions)).map concatAll

def printCustomScalar (scalar : ScalarDef) : Option String := do
  let ad ← printAppliedDirectives scalar.appliedDirectives ""
  pure (printDescription scalar.description 0 ++ "scalar " ++ scalar.name ++ ad ++ "\n\n")

def printCustomScalars (scalars : List ScalarDef) : Option String :=
  (mapMOption printCustomScalar (sortByName ScalarDef.name scalars)).map concatAll

def isSchemaDefinitionNeeded (schema : Schema) : Bool :=
  (match schema.query with
   | some q => q.name ≠ "Query"
   | none => false) ||
  (match schema.mutation with
   | some m => m.name ≠ "Mutation"
   | none => false) ||
  (match schema.subscription with
   | some s => s.name ≠ "Subscription"
   | none => false)

structure PrinterOptions where
  IncludeDirectiveDefinition : Bool
  IncludeSchemaDefinition : Bool

def DefaultPrinterOptions : PrinterOptions :=
  { IncludeDirectiveDefinition := true, IncludeSchemaDefinition := true }

def isBuiltInScalarName (n : String) : Bool :=
  n = "Boolean" ∨ n = "Float" ∨ n = "ID" ∨ n = "Int" ∨ n = "String"

/-- The skip test of `PrintSchema`'s partition loop: introspection names
(prefix `__`) and built-in scalar names, checked on the registry key. -/
def skipTypeEntry (n : String) : Bool :=
  nameIsIntrospection n || isBuiltInScalarName n

def enumOfType : GqlType → Option EnumDef
  | .enum e => some e
  | _ => none

def inputObjectOfType : GqlType → Option InputObjectDef
  | .inputObject i => some i
  | _ => none

def interfaceOfType : GqlType → Option InterfaceDef
  | .iface i => some i
  | _ => none

def objectOfType : GqlType → Option ObjectDef
  | .object o => some o
  | _ => none

def unionOfType : GqlType → Option UnionDef
  | .union u => some u
  | _ => none

def scalarOfType : GqlType → Option ScalarDef
  | .scalar s => some s
  | _ => none

def schemaEnums (tm : List (String × GqlType)) : List EnumDef :=
  tm.filterMap (fun p => if skipTypeEntry p.1 then none else enumOfType p.2)

def schemaInputObjects (tm : List (String × GqlType)) : List InputObjectDef :=
  tm.filterMap (fun p => if skipTypeEntry p.1 then none else inputObjectOfType p.2)

def schemaInterfaces (tm : List (String × GqlType)) : List InterfaceDef :=
  tm.filterMap (fun p => if skipTypeEntry p.1 then none else interfaceOfType p.2)

def schemaObjects (tm : List (String × GqlType)) : List ObjectDef :=
  tm.filterMap (fun p => if skipTypeEntry p.1 then none else objectOfType p.2)

def schemaUnions (tm : List (String × GqlType)) : List UnionDef :=
  tm.filterMap (fun p => if skipTypeEntry p.1 then none else unionOfType p.2)

def schemaScalars (tm : List (String × GqlType)) : List ScalarDef :=
  tm.filterMap (fun p => if skipTypeEntry p.1 then none else scalarOfType p.2)

def PrintSchema (schema : Schema) (options : PrinterOptions) : Option String :=
  (if options.IncludeSchemaDefinition || isSchemaDefinitionNeeded schema then
    printSchemaDefinition schema
  else some "").bind fun head =>
  (printEnumDefinitions (schemaEnums schema.typeMap)).bind fun enums =>
  (printInputObjectDefinitions (schemaInputObjects schema.typeMap)).bind fun inputs =>
  (printInterfaceDefinitions (schemaInterfaces schema.typeMap)).bind fun intfs =>
  (printObjectDefinitions (schemaObjects schema.typeMap)).bind fun objs =>
  (printUnionDefinitions (schemaUnions schema.typeMap)).bind fun unions =>
  (printCustomScalars (schemaScalars schema.typeMap)).bind fun scalars =>
  some (trimSpace (head ++
    (if options.IncludeDirectiveDefinition then printDirectiveDefinitions schema.directives
     else "") ++
    enums ++ inputs ++ intfs ++ objs ++ unions ++ scalars))

/-! ## Directive catalog (`directives.go`) -/

def ComposeDirectiveDefinition : DirectiveDef :=
  { name := "composeDirective", description := "",
    args := [{ name := "name", type := .nonNull (.named "String") }],
    locations := ["SCHEMA"], repeatable := true }

def ExternalDirectiveDefinition : DirectiveDef :=
  { name := "external",
    description := "Marks target field as external meaning it will be resolved by federated schema",
    args := [], locations := ["FIELD_DEFINITION"], repeatable := false }

def InaccessibleDirectiveDefinition : DirectiveDef :=
  { name := "inaccessible",
    description := "Marks location within schema as inaccessible from the GraphQL Gateway",
    args := [],
    locations := ["FIELD_DEFINITION", "OBJECT", "INTERFACE", "UNION", "ENUM", "ENUM_VALUE",
      "SCALAR", "INPUT_OBJECT", "INPUT_FIELD_DEFINITION", "ARGUMENT_DEFINITION"],
    repeatable := false }

def KeyDirectiveDefinition : DirectiveDef :=
  { name := "key",
    description := "Space separated list of primary keys needed to access federated object",
    args := [{ name := "fields", type := .nonNull (.named "FieldSet") },
             { name := "resolvable", type := .named "Boolean" }],
    locations := ["OBJECT", "INTERFACE"], repeatable := true }

def LinkDirectiveDefinition : DirectiveDef :=
  { name := "link", description := "",
    args := [{ name := "url", type := .nonNull (.named "String") },
             { name := "import", type := .listOf (.named "String") }],
    locations := ["SCHEMA"], repeatable := true }

def OverrideDirectiveDefinition : DirectiveDef :=
  { name := "override",
    description := "Overrides fields resolution logic from other subgraph. Used for migrating fields from one subgraph to another.",
    args := [{ name := "from", type := .nonNull (.named "String") }],
    locations := ["FIELD_DEFINITION"], repeatable := false }

def ProvidesDirectiveDefinition : DirectiveDef :=
  { name := "provides",
    description := "Specifies locally selectable fields on a given entity",
    args := [{ name := "fields", type := .nonNull (.named "FieldSet") }],
    locations := ["FIELD_DEFINITION"], repeatable := false }

def RequiresDirectiveDefinition : DirectiveDef :=
  { name := "requires",
    description := "Specifies external federated fields required for computing this field value",
    args := [{ name := "fields", type := .nonNull (.named "FieldSet") }],
    locations := ["FIELD_DEFINITION"], repeatable := false }

def ShareableDirectiveDefinition : DirectiveDef :=
  { name := "shareable",
    description := "Indicates that given object and/or field can be resolved by multiple subgraphs",
    args := [], locations := ["FIELD_DEFINITION", "OBJECT"], repeatable := false }

def TagDirectiveDefinition : DirectiveDef :=
  { name := "tag",
    description := "Allows users to annotate fields and types with additional metadata information",
    args := [{ name := "name", type := .nonNull (.named "String") }],
    locations := ["FIELD_DEFINITION", "OBJECT", "INTERFACE", "UNION", "ARGUMENT_DEFINITION",
      "SCALAR", "ENUM", "ENUM_VALUE", "INPUT_OBJECT", "INPUT_FIELD_DEFINITION"],
    repeatable := true }

/-- Modelled from the spec: the three built-in execution directives of the
underlying graphql library (`graphql.DeprecatedDirective`, `IncludeDirective`,
`SkipDirective`), which are not part of `src/`; their shapes follow the
directive definitions the specification and the package's tests render. -/
def DeprecatedDirective : DirectiveDef :=
  { name := "deprecated",
    description := "Marks an element of a GraphQL schema as no longer supported.",
    args := [{ name := "reason", type := .named "String" }],
    locations := ["FIELD_DEFINITION", "ENUM_VALUE"], repeatable := false }

/-- Modelled from the spec: see `DeprecatedDirective`. -/
def IncludeDirective : DirectiveDef :=
  { name := "include",
    description := "Directs the executor to include this field or fragment only when the `if` argument is true.",
    args := [{ name := "if", type := .nonNull (.named "Boolean") }],
    locations := ["FIELD", "FRAGMENT_SPREAD", "INLINE_FRAGMENT"], repeatable := false }

/-- Modelled from the spec: see `DeprecatedDirective`. -/
def SkipDirective : DirectiveDef :=
  { name := "skip",
    description := "Directs the executor to skip this field or fragment when the `if` argument is true.",
    args := [{ name := "if", type := .nonNull (.named "Boolean") }],
    locations := ["FIELD", "FRAGMENT_SPREAD", "INLINE_FRAGMENT"], repeatable := false }

def ExternalAppliedDirective : AppliedDirective :=
  { name := "external", args := [] }

def KeyAppliedDirective (fieldSet : String) (resolvable : Bool) : AppliedDirective :=
  { name := "key",
    args := [{ name := "fields", value := .str fieldSet },
             { name := "resolvable", value := .boolean resolvable }] }

def LinkAppliedDirective (url : String) (imports : List String) : AppliedDirective :=
  { name := "link",
    args := [{ name := "url", value := .str url },
             { name := "import", value := .list (imports.map ArgValue.str) }] }

def TagAppliedDirective (value : String) : AppliedDirective :=
  { name := "tag", args := [{ name := "name", value := .str value }] }

/-! ## Federated types and the composer (`NewFederatedSchema`) -/

def AnyScalar : ScalarDef :=
  { name := "_Any",
    description := "The `_Any` scalar is used to pass representations of entities from external services into the root _entities field for execution.",
    appliedDirectives := [] }

def FieldSetScalar : ScalarDef :=
  { name := "FieldSet",
    description := "String-serialized scalar represents a set of fields that's passed to a federated directive, such as @key, @requires, or @provides",
    appliedDirectives := [] }

def ServiceObject : ObjectDef :=
  { name := "_Service", description := "", interfaces := [],
    fields := [("sdl",
      { name := "sdl", description := "", args := [], type := .nonNull (.named "String"),
        deprecationReason := "", appliedDirectives := [] })],
    appliedDirectives := [], extend := false }

def isEntity (t : ObjectDef) : Bool :=
  if t.extend then false
  else t.appliedDirectives.any (fun directive => directive.name = "key")

def findEntityTypes (schema : Schema) : List ObjectDef :=
  schema.typeMap.filterMap (fun p =>
    match p.2 with
    | .object obj => if isEntity obj then some obj else none
    | _ => none)

def federationLinkAppliedDirective : AppliedDirective :=
  LinkAppliedDirective ("https://specs.apollo.dev/federation/v2.1")
    ["@composeDirective", "@external", "@inaccessible", "@key", "@override",
     "@provides", "@requires", "@shareable", "@tag", "FieldSet"]

/-- The ten federation directive definitions appended by `NewFederatedSchema`. -/
def federationDirectiveDefinitions : List DirectiveDef :=
  [ComposeDirectiveDefinition, ExternalDirectiveDefinition, InaccessibleDirectiveDefinition,
   KeyDirectiveDefinition, LinkDirectiveDefinition, OverrideDirectiveDefinition,
   ProvidesDirectiveDefinition, RequiresDirectiveDefinition, ShareableDirectiveDefinition,
   TagDirectiveDefinition]

/-- graphql.SchemaConfig as the composer uses it: root types, extra types,
directive definitions and schema-block applied directives. -/
structure SchemaConfig where
  query : Option ObjectDef
  mutation : Option ObjectDef
  subscription : Option ObjectDef
  types : List GqlType
  directives : List DirectiveDef
  appliedDirectives : List AppliedDirective

/-- FederatedSchemaConfig embeds a SchemaConfig; the two resolver hooks
(`EntitiesFieldResolver`, `EntityTypeResolver`) are Go functions with no
bearing on the composed schema value and are not part of the state model. -/
structure FederatedSchemaConfig where
  schemaConfig : SchemaConfig

def serviceField : FieldDefinition :=
  { name := "_service", description := "", args := [], type := .named "_Service",
    deprecationReason := "", appliedDirectives := [] }

def entitiesField : FieldDefinition :=
  { name := "_entities", description := "",
    args := [{ name := "representations", type := .nonNull (.listOf (.nonNull (.named "_Any"))) }],
    type := .nonNull (.listOf (.named "_Entity")),
    deprecationReason := "", appliedDirectives := [] }

def defaultQueryObject : ObjectDef :=
  { name := "Query", description := "", interfaces := [],
    fields := [("_service", serviceField)],
    appliedDirectives := [], extend := false }

/-- The `_ExtendHelper` placeholder object synthesized when no entity type is
discovered: a single `id: ID!` field carrying the applied `@external`. -/
def extendHelperObject : ObjectDef :=
  { name := "_ExtendHelper", description := "", interfaces := [],
    fields := [("id",
      { name := "id", description := "", args := [], type := .nonNull (.named "ID"),
        deprecationReason := "", appliedDirectives := [ExternalAppliedDirective] })],
    appliedDirectives := [], extend := false }

/-- The config mutations `NewFederatedSchema` performs before the underlying
build: append the three built-in and ten federation directive definitions,
append the `@link` applied directive, append `_Any`/`FieldSet`/`_Service`,
and ensure a query root with a `_service` field. -/
def augmentConfig (config : FederatedSchemaConfig) : SchemaConfig :=
  let cfg := config.schemaConfig
  let cfg := { cfg with directives := cfg.directives ++
    ([DeprecatedDirective, IncludeDirective, SkipDirective] ++ federationDirectiveDefinitions) }
  let cfg := { cfg with appliedDirectives := cfg.appliedDirectives ++ [federationLinkAppliedDirective] }
  let cfg := { cfg with types := cfg.types ++
    [GqlType.scalar AnyScalar, GqlType.scalar FieldSetScalar, GqlType.object ServiceObject] }
  match cfg.query with
  | none => { cfg with query := some defaultQueryObject }
  | some q =>
    { cfg with query := some { q with fields := setAssoc q.fields ("_service") serviceField } }

/-- Modelled from the spec: the type registry built by the underlying
`graphql.NewSchema` (not under `src/`) maps each registered type's name to the
type; root types and the configured extra types are registered. Introspection
types are omitted — the printer skips them anyway. -/
def buildTypeMap (cfg : SchemaConfig) : List (String × GqlType) :=
  ((cfg.query.map GqlType.object).toList ++ (cfg.mutation.map GqlType.object).toList ++
   (cfg.subscription.map GqlType.object).toList ++ cfg.types).foldl
    (fun m t => setAssoc m t.tname t) []

/-- Modelled from the spec: on success the underlying `graphql.NewSchema`
passes the configured roots, directives and applied directives through into
the built schema and registers the types. -/
def schemaOfConfig (cfg : SchemaConfig) : Schema :=
  { query := cfg.query, mutation := cfg.mutation, subscription := cfg.subscription,
    typeMap := buildTypeMap cfg, directives := cfg.directives,
    appliedDirectives := cfg.appliedDirectives }

/-- Modelled from the spec: `graphql.NewSchema` (the underlying build, not
under `src/`) validates structural correctness — the validation itself is an
oracle parameter — and on success builds the schema from the configuration. -/
def newSchema (validate : SchemaConfig → Option String) (cfg : SchemaConfig) :
    Except String Schema :=
  match validate cfg with
  | some e => Except.error e
  | none => Except.ok (schemaOfConfig cfg)

/-- `NewFederatedSchema`. The `Except String` layer models Go panics (the
explicit `panic` on a failed underlying build, the nil-pointer dereference on
a missing query type, and a panic escaping the `PrintSchema` call); the
`Option String` in the payload is the returned Go `error` value. -/
def NewFederatedSchema (validate : SchemaConfig → Option String)
    (config : FederatedSchemaConfig) : Except String (Schema × Option String) :=
  match newSchema validate (augmentConfig config) with
  | Except.error e => Except.error ("failure to create schema" ++ e)
  | Except.ok schema =>
    let entities := findEntityTypes schema
    let entities := if entities.isEmpty then [extendHelperObject] else entities
    let entityType : UnionDef :=
      { name := "_Entity", description := "", types := entities, appliedDirectives := [] }
    let tm₁ := setAssoc schema.typeMap ("_Entity") (GqlType.union entityType)
    match schema.query with
    | none => Except.error ("runtime error: invalid memory address or nil pointer dereference")
    | some q =>
      let q₁ : ObjectDef := { q with fields := setAssoc q.fields ("_entities") entitiesField }
      let s₁ : Schema :=
        { schema with
          query := some q₁
          typeMap := setAssoc tm₁ q.name (GqlType.object q₁) }
      match PrintSchema s₁ DefaultPrinterOptions with
      | none => Except.error ("runtime error: index out of range")
      | some _ =>
        let q₂ : ObjectDef := { q₁ with fields := setAssoc q₁.fields ("_service") serviceField }
        let s₂ : Schema :=
          { s₁ with
            query := some q₂
            typeMap := setAssoc s₁.typeMap q.name (GqlType.object q₂) }
        Except.ok (s₂, none)

/-! ## Printability of applied-directive argument values

`printAppliedDirective` panics (models as `none`) exactly when an argument
value contains a nil (reflection on a nil value) or flattens to zero printed
atoms (`value[0]` on an empty slice). `directiveArgOK` is the decidable
printability test. -/

def directiveArgOK (arg : AppliedDirectiveArgument) : Bool :=
  match printAppliedDirectiveArgumentValue arg.value with
  | some (_ :: _) => true
  | _ => false

def appliedDirectiveOK (d : AppliedDirective) : Bool :=
  d.args.all directiveArgOK

def appliedsOK (l : List AppliedDirective) : Bool :=
  l.all appliedDirectiveOK

def fieldOK (f : FieldDefinition) : Bool :=
  appliedsOK f.appliedDirectives

def fieldMapOK (m : FieldDefinitionMap) : Bool :=
  m.all (fun p => fieldOK p.2)

def inputFieldMapOK (m : InputObjectFieldMap) : Bool :=
  m.all (fun p => appliedsOK p.2.appliedDirectives)

def typeOK : GqlType → Bool
  | .enum e => appliedsOK e.appliedDirectives &&
      e.values.all (fun v => appliedsOK v.appliedDirectives)
  | .inputObject i => appliedsOK i.appliedDirectives && inputFieldMapOK i.fields
  | .iface i => appliedsOK i.appliedDirectives && fieldMapOK i.fields
  | .object o => appliedsOK o.appliedDirectives && fieldMapOK o.fields
  | .union u => appliedsOK u.appliedDirectives
  | .scalar s => appliedsOK s.appliedDirectives

/-- Printability of a whole schema: every applied directive reachable by the
printer has printable argument values. -/
def schemaOK (s : Schema) : Bool :=
  appliedsOK s.appliedDirectives && s.typeMap.all (fun p => typeOK p.2)

theorem mapMOption_isSome {α β} {f : α → Option β} {l : List α}
    (h : ∀ a ∈ l, (f a).isSome) : (mapMOption f l).isSome := by
  induction l with
  | nil => simp [mapMOption]
  | cons a t ih =>
    rcases Option.isSome_iff_exists.mp (h a (List.mem_cons_self a t)) with ⟨b, hb⟩
    rcases Option.isSome_iff_exists.mp (ih (fun x hx => h x (List.mem_cons_of_mem a hx))) with ⟨bs, hbs⟩
    simp [mapMOption, hb, hbs]

theorem mapMOption_congr {α β} {f g : α → Option β} {l : List α}
    (h : ∀ a ∈ l, f a = g a) : mapMOption f l = mapMOption g l := by
  induction l with
  | nil => rfl
  | cons a t ih =>
    simp only [mapMOption, h a (List.mem_cons_self a t),
      ih (fun x hx => h x (List.mem_cons_of_mem a hx))]

theorem printAppliedDirectiveArgument_total {arg : AppliedDirectiveArgument}
    (h : directiveArgOK arg = true) : (printAppliedDirectiveArgument arg).isSome := by
  unfold directiveArgOK at h
  unfold printAppliedDirectiveArgument
  rcases hv : printAppliedDirectiveArgumentValue arg.value with _ | vs
  · rw [hv] at h
    simp at h
  · rcases vs with _ | ⟨v, rest⟩
    · rw [hv] at h
      simp at h
    · rcases rest with _ | ⟨w, rest'⟩ <;> simp

theorem printAppliedDirective_total {d : AppliedDirective}
    (h : appliedDirectiveOK d = true) : (printAppliedDirective d).isSome := by
  unfold printAppliedDirective
  by_cases he : d.args.isEmpty
  · simp [he]
  · rw [if_neg he]
    have hm : (mapMOption printAppliedDirectiveArgument d.args).isSome := by
      apply mapMOption_isSome
      intro a ha
      exact printAppliedDirectiveArgument_total (by
        unfold appliedDirectiveOK at h
        exact List.all_eq_true.mp h a ha)
    rcases Option.isSome_iff_exists.mp hm with ⟨args, hargs⟩
    simp [hargs]

theorem printAppliedDirectives_total (reason : String) {l : List AppliedDirective}
    (h : appliedsOK l = true) : (printAppliedDirectives l reason).isSome := by
  unfold printAppliedDirectives
  by_cases he : l.isEmpty
  · simp [he]
  · rw [if_neg he]
    have hm : (mapMOption printAppliedDirective (sortAppliedDirectives l)).isSome := by
      apply mapMOption_isSome
      intro a ha
      apply printAppliedDirective_total
      have hmem : a ∈ l := (sortByName_perm AppliedDirective.name l).mem_iff.mp ha
      exact List.all_eq_true.mp h a hmem
    rcases Option.isSome_iff_exists.mp hm with ⟨parts, hparts⟩
    simp [hparts]

theorem mem_partition {β : Type} {tm : List (String × GqlType)} (f : GqlType → Option β) {b : β}
    (hb : b ∈ tm.filterMap (fun p => if skipTypeEntry p.1 then none else f p.2)) :
    ∃ p ∈ tm, f p.2 = some b := by
  rcases List.mem_filterMap.mp hb with ⟨p, hp, hfp⟩
  refine ⟨p, hp, ?_⟩
  by_cases hs : skipTypeEntry p.1
  · simp [hs] at hfp
  · simpa [hs] using hfp

theorem printEnumValueDefinition_total {v : EnumValueDef}
    (h : appliedsOK v.appliedDirectives = true) : (printEnumValueDefinition v).isSome := by
  unfold printEnumValueDefinition
  rcases Option.isSome_iff_exists.mp (printAppliedDirectives_total v.deprecationReason h) with ⟨ad, had⟩
  simp [had]

theorem printEnumDefinition_total {e : EnumDef}
    (h : typeOK (GqlType.enum e) = true) : (printEnumDefinition e).isSome := by
  unfold typeOK at h
  rcases Bool.and_eq_true_iff.mp h with ⟨h₁, h₂⟩
  unfold printEnumDefinition
  rcases Option.isSome_iff_exists.mp (printAppliedDirectives_total ("") h₁) with ⟨ad, had⟩
  have hvals : (mapMOption printEnumValueDefinition (sortByName EnumValueDef.name e.values)).isSome := by
    apply mapMOption_isSome
    intro v hv
    exact printEnumValueDefinition_total
      (List.all_eq_true.mp h₂ v ((sortByName_perm EnumValueDef.name e.values).mem_iff.mp hv))
  rcases Option.isSome_iff_exists.mp hvals with ⟨vals, hvals'⟩
  simp [had, hvals']

theorem printEnumDefinitions_total {enums : List EnumDef}
    (h : ∀ e ∈ enums, typeOK (GqlType.enum e) = true) :
    (printEnumDefinitions enums).isSome := by
  unfold printEnumDefinitions
  have hm : (mapMOption printEnumDefinition (sortByName EnumDef.name enums)).isSome := by
    apply mapMOption_isSome
    intro e he
    exact printEnumDefinition_total (h e ((sortByName_perm EnumDef.name enums).mem_iff.mp he))
  rcases Option.isSome_iff_exists.mp hm with ⟨xs, hxs⟩
  simp [hxs]

theorem printInputObjectFieldDefinition_total {f : InputFieldDef}
    (h : appliedsOK f.appliedDirectives = true) :
    (printInputObjectFieldDefinition f).isSome := by
  unfold printInputObjectFieldDefinition
  rcases Option.isSome_iff_exists.mp (printAppliedDirectives_total ("") h) with ⟨ad, had⟩
  simp [had]

theorem printInputObjectFieldDefinitions_total {m : InputObjectFieldMap}
    (h : inputFieldMapOK m = true) : (printInputObjectFieldDefinitions m).isSome := by
  unfold printInputObjectFieldDefinitions
  have hm : (mapMOption (fun k =>
      match lookupAssoc m k with
      | some field => printInputObjectFieldDefinition field
      | none => some "") (sortStrings (m.map Prod.fst))).isSome := by
    apply mapMOption_isSome
    intro k _
    rcases hk : lookupAssoc m k with _ | f
    · simp
    · have hmem : (k, f) ∈ m := lookupAssoc_mem hk
      have hf : appliedsOK f.appliedDirectives = true := by
        have := List.all_eq_true.mp h (k, f) hmem
        simpa using this
      simpa using printInputObjectFieldDefinition_total hf
  rcases Option.isSome_iff_exists.mp hm with ⟨xs, hxs⟩
  simp [hxs]

theorem printInputObjectDefinition_total {i : InputObjectDef}
    (h : typeOK (GqlType.inputObject i) = true) : (printInputObjectDefinition i).isSome := by
  unfold typeOK at h
  rcases Bool.and_eq_true_iff.mp h with ⟨h₁, h₂⟩
  unfold printInputObjectDefinition
  rcases Option.isSome_iff_exists.mp (printAppliedDirectives_total ("") h₁) with ⟨ad, had⟩
  rcases Option.isSome_iff_exists.mp (printInputObjectFieldDefinitions_total h₂) with ⟨flds, hflds⟩
  simp [had, hflds]

theorem printInputObjectDefinitions_total {inputObjects : List InputObjectDef}
    (h : ∀ i ∈ inputObjects, typeOK (GqlType.inputObject i) = true) :
    (printInputObjectDefinitions inputObjects).isSome := by
  unfold printInputObjectDefinitions
  have hm : (mapMOption printInputObjectDefinition
      (sortByName InputObjectDef.name inputObjects)).isSome := by
    apply mapMOption_isSome
    intro i hi
    exact printInputObjectDefinition_total
      (h i ((sortByName_perm InputObjectDef.name inputObjects).mem_iff.mp hi))
  rcases Option.isSome_iff_exists.mp hm with ⟨xs, hxs⟩
  simp [hxs]

theorem printFieldDefinition_total {f : FieldDefinition}
    (h : fieldOK f = true) : (printFieldDefinition f).isSome := by
  unfold fieldOK at h
  unfold printFieldDefinition
  rcases Option.isSome_iff_exists.mp
    (printAppliedDirectives_total f.deprecationReason h) with ⟨ad, had⟩
  simp [had]

theorem printFieldDefinitions_total {m : FieldDefinitionMap}
    (h : fieldMapOK m = true) : (printFieldDefinitions m).isSome := by
  unfold printFieldDefinitions
  have hm : (mapMOption (fun k =>
      match lookupAssoc m k with
      | some field => printFieldDefinition field
      | none => some "") (sortStrings (m.map Prod.fst))).isSome := by
    apply mapMOption_isSome
    intro k _
    rcases hk : lookupAssoc m k with _ | f
    · simp
    · have hmem : (k, f) ∈ m := lookupAssoc_mem hk
      have hf : fieldOK f = true := by
        have := List.all_eq_true.mp h (k, f) hmem
        simpa using this
      simpa using printFieldDefinition_total hf
  rcases Option.isSome_iff_exists.mp hm with ⟨xs, hxs⟩
  simp [hxs]

theorem printInterfaceDefinition_total {i : InterfaceDef}
    (h : typeOK (GqlType.iface i) = true) : (printInterfaceDefinition i).isSome := by
  unfold typeOK at h
  rcases Bool.and_eq_true_iff.mp h with ⟨h₁, h₂⟩
  unfold printInterfaceDefinition
  rcases Option.isSome_iff_exists.mp (printAppliedDirectives_total ("") h₁) with ⟨ad, had⟩
  rcases Option.isSome_iff_exists.mp (printFieldDefinitions_total h₂) with ⟨flds, hflds⟩
  simp [had, hflds]

theorem printInterfaceDefinitions_total {interfaces : List InterfaceDef}
    (h : ∀ i ∈ interfaces, typeOK (GqlType.iface i) = true) :
    (printInterfaceDefinitions interfaces).isSome := by
  unfold printInterfaceDefinitions
  have hm : (mapMOption printInterfaceDefinition
      (sortByName InterfaceDef.name interfaces)).isSome := by
    apply mapMOption_isSome
    intro i hi
    exact printInterfaceDefinition_total
      (h i ((sortByName_perm InterfaceDef.name interfaces).mem_iff.mp hi))
  rcases Option.isSome_iff_exists.mp hm with ⟨xs, hxs⟩
  simp [hxs]

theorem printObjectDefinition_total {o : ObjectDef}
    (h : typeOK (GqlType.object o) = true) : (printObjectDefinition o).isSome := by
  unfold typeOK at h
  rcases Bool.and_eq_true_iff.mp h with ⟨h₁, h₂⟩
  unfold printObjectDefinition
  rcases Option.isSome_iff_exists.mp (printAppliedDirectives_total ("") h₁) with ⟨ad, had⟩
  rcases Option.isSome_iff_exists.mp (printFieldDefinitions_total h₂) with ⟨flds, hflds⟩
  simp [had, hflds]

theorem printObjectDefinitions_total {objects : List ObjectDef}
    (h : ∀ o ∈ objects, typeOK (GqlType.object o) = true) :
    (printObjectDefinitions objects).isSome := by
  unfold printObjectDefinitions
  have hm : (mapMOption printObjectDefinition (sortByName ObjectDef.name objects)).isSome := by
    apply mapMOption_isSome
    intro o ho
    exact printObjectDefinition_total
      (h o ((sortByName_perm ObjectDef.name objects).mem_iff.mp ho))
  rcases Option.isSome_iff_exists.mp hm with ⟨xs, hxs⟩
  simp [hxs]

theorem printUnionDefinition_total {u : UnionDef}
    (h : typeOK (GqlType.union u) = true) : (printUnionDefinition u).isSome := by
  unfold typeOK at h
  unfold printUnionDefinition
  rcases Option.isSome_iff_exists.mp (printAppliedDirectives_total ("") h) with ⟨ad, had⟩
  simp [had]

theorem printUnionDefinitions_total {unions : List UnionDef}
    (h : ∀ u ∈ unions, typeOK (GqlType.union u) = true) :
    (printUnionDefinitions unions).isSome := by
  unfold printUnionDefinitions
  have hm : (mapMOption printUnionDefinition (sortByName UnionDef.name unions)).isSome := by
    apply mapMOption_isSome
    intro u hu
    exact printUnionDefinition_total
      (h u ((sortByName_perm UnionDef.name unions).mem_iff.mp hu))
  rcases Option.isSome_iff_exists.mp hm with ⟨xs, hxs⟩
  simp [hxs]

theorem printCustomScalar_total {s : ScalarDef}
    (h : typeOK (GqlType.scalar s) = true) : (printCustomScalar s).isSome := by
  unfold typeOK at h
  unfold printCustomScalar
  rcases Option.isSome_iff_exists.mp (printAppliedDirectives_total ("") h) with ⟨ad, had⟩
  simp [had]

theorem printCustomScalars_total {scalars : List ScalarDef}
    (h : ∀ s ∈ scalars, typeOK (GqlType.scalar s) = true) :
    (printCustomScalars scalars).isSome := by
  unfold printCustomScalars
  have hm : (mapMOption printCustomScalar (sortByName ScalarDef.name scalars)).isSome := by
    apply mapMOption_isSome
    intro s hs
    exact printCustomScalar_total
      (h s ((sortByName_perm ScalarDef.name scalars).mem_iff.mp hs))
  rcases Option.isSome_iff_exists.mp hm with ⟨xs, hxs⟩
  simp [hxs]

theorem printSchemaDefinition_total {s : Schema}
    (h : appliedsOK s.appliedDirectives = true) (hq : s.query.isSome) :
    (printSchemaDefinition s).isSome := by
  unfold printSchemaDefinition
  rcases Option.isSome_iff_exists.mp (printAppliedDirectives_total ("") h) with ⟨ad, had⟩
  rcases Option.isSome_iff_exists.mp hq with ⟨q, hq'⟩
  simp [had, hq']

theorem PrintSchema_total {s : Schema} (options : PrinterOptions)
    (hok : schemaOK s = true) (hq : s.query.isSome) :
    (PrintSchema s options).isSome := by
  rcases Bool.and_eq_true_iff.mp hok with ⟨h₁, h₂⟩
  have hall : ∀ p ∈ s.typeMap, typeOK p.2 = true := fun p hp => List.all_eq_true.mp h₂ p hp
  unfold PrintSchema
  have hhead : (if options.IncludeSchemaDefinition || isSchemaDefinitionNeeded s then
      printSchemaDefinition s else some "").isSome := by
    by_cases hc : options.IncludeSchemaDefinition || isSchemaDefinitionNeeded s
    · rw [if_pos hc]
      exact printSchemaDefinition_total h₁ hq
    · rw [if_neg hc]
      simp
  rcases Option.isSome_iff_exists.mp hhead with ⟨head, hh⟩
  have henums : (printEnumDefinitions (schemaEnums s.typeMap)).isSome := by
    apply printEnumDefinitions_total
    intro e he
    unfold schemaEnums at he
    rcases mem_partition enumOfType he with ⟨p, hp, hfp⟩
    have htp := hall p hp
    rcases hp2 : p.2 with e' | i' | i' | o' | u' | s' <;> rw [hp2] at hfp htp <;> simp [enumOfType, inputObjectOfType, interfaceOfType, objectOfType, unionOfType, scalarOfType] at hfp
    subst hfp
    exact htp
  have hinputs : (printInputObjectDefinitions (schemaInputObjects s.typeMap)).isSome := by
    apply printInputObjectDefinitions_total
    intro i hi
    unfold schemaInputObjects at hi
    rcases mem_partition inputObjectOfType hi with ⟨p, hp, hfp⟩
    have htp := hall p hp
    rcases hp2 : p.2 with e' | i' | i' | o' | u' | s' <;> rw [hp2] at hfp htp <;> simp [enumOfType, inputObjectOfType, interfaceOfType, objectOfType, unionOfType, scalarOfType] at hfp
    subst hfp
    exact htp
  have hintfs : (printInterfaceDefinitions (schemaInterfaces s.typeMap)).isSome := by
    apply printInterfaceDefinitions_total
    intro i hi
    unfold schemaInterfaces at hi
    rcases mem_partition interfaceOfType hi with ⟨p, hp, hfp⟩
    have htp := hall p hp
    rcases hp2 : p.2 with e' | i' | i' | o' | u' | s' <;> rw [hp2] at hfp htp <;> simp [enumOfType, inputObjectOfType, interfaceOfType, objectOfType, unionOfType, scalarOfType] at hfp
    subst hfp
    exact htp
  have hobjs : (printObjectDefinitions (schemaObjects s.typeMap)).isSome := by
    apply printObjectDefinitions_total
    intro o ho
    unfold schemaObjects at ho
    rcases mem_partition objectOfType ho with ⟨p, hp, hfp⟩
    have htp := hall p hp
    rcases hp2 : p.2 with e' | i' | i' | o' | u' | s' <;> rw [hp2] at hfp htp <;> simp [enumOfType, inputObjectOfType, interfaceOfType, objectOfType, unionOfType, scalarOfType] at hfp
    subst hfp
    exact htp
  have hunions : (printUnionDefinitions (schemaUnions s.typeMap)).isSome := by
    apply printUnionDefinitions_total
    intro u hu
    unfold schemaUnions at hu
    rcases mem_partition unionOfType hu with ⟨p, hp, hfp⟩
    have htp := hall p hp
    rcases hp2 : p.2 with e' | i' | i' | o' | u' | s' <;> rw [hp2] at hfp htp <;> simp [enumOfType, inputObjectOfType, interfaceOfType, objectOfType, unionOfType, scalarOfType] at hfp
    subst hfp
    exact htp
  have hscalars : (printCustomScalars (schemaScalars s.typeMap)).isSome := by
    apply printCustomScalars_total
    intro sc hsc
    unfold schemaScalars at hsc
    rcases mem_partition scalarOfType hsc with ⟨p, hp, hfp⟩
    have htp := hall p hp
    rcases hp2 : p.2 with e' | i' | i' | o' | u' | s' <;> rw [hp2] at hfp htp <;> simp [enumOfType, inputObjectOfType, interfaceOfType, objectOfType, unionOfType, scalarOfType] at hfp
    subst hfp
    exact htp
  rcases Option.isSome_iff_exists.mp henums with ⟨enums, he⟩
  rcases Option.isSome_iff_exists.mp hinputs with ⟨inputs, hi⟩
  rcases Option.isSome_iff_exists.mp hintfs with ⟨intfs, hif⟩
  rcases Option.isSome_iff_exists.mp hobjs with ⟨objs, hob⟩
  rcases Option.isSome_iff_exists.mp hunions with ⟨unions, hun⟩
  rcases Option.isSome_iff_exists.mp hscalars with ⟨scalars, hsc'⟩
  simp only [Bool.or_eq_true] at hh
  simp [hh, he, hi, hif, hob, hun, hsc']

/-! ## Iteration-order independence of the printer -/

theorem enumOfType_name {t : GqlType} {b : EnumDef} (ht : enumOfType t = some b) :
    b.name = t.tname := by
  cases t <;> simp [enumOfType] at ht <;> subst ht <;> rfl

theorem inputObjectOfType_name {t : GqlType} {b : InputObjectDef}
    (ht : inputObjectOfType t = some b) : b.name = t.tname := by
  cases t <;> simp [inputObjectOfType] at ht <;> subst ht <;> rfl

theorem interfaceOfType_name {t : GqlType} {b : InterfaceDef}
    (ht : interfaceOfType t = some b) : b.name = t.tname := by
  cases t <;> simp [interfaceOfType] at ht <;> subst ht <;> rfl

theorem objectOfType_name {t : GqlType} {b : ObjectDef} (ht : objectOfType t = some b) :
    b.name = t.tname := by
  cases t <;> simp [objectOfType] at ht <;> subst ht <;> rfl

theorem unionOfType_name {t : GqlType} {b : UnionDef} (ht : unionOfType t = some b) :
    b.name = t.tname := by
  cases t <;> simp [unionOfType] at ht <;> subst ht <;> rfl

theorem scalarOfType_name {t : GqlType} {b : ScalarDef} (ht : scalarOfType t = some b) :
    b.name = t.tname := by
  cases t <;> simp [scalarOfType] at ht <;> subst ht <;> rfl

theorem partition_names_sublist {β : Type} (f : GqlType → Option β) (key : β → String)
    (hf : ∀ t b, f t = some b → key b = t.tname) :
    ∀ tm : List (String × GqlType),
      ((tm.filterMap (fun p => if skipTypeEntry p.1 then none else f p.2)).map key).Sublist
        (tm.map (fun p => p.2.tname))
  | [] => by simp
  | p :: t => by
    cases hfa : (if skipTypeEntry p.1 then none else f p.2) with
    | none =>
      rw [List.filterMap_cons, hfa, List.map_cons]
      exact (partition_names_sublist f key hf t).cons _
    | some b =>
      rw [List.filterMap_cons, hfa, List.map_cons, List.map_cons]
      have hkey : key b = p.2.tname := by
        by_cases hs : skipTypeEntry p.1
        · rw [if_pos hs] at hfa
          cases hfa
        · rw [if_neg hs] at hfa
          exact hf p.2 b hfa
      rw [hkey]
      exact (partition_names_sublist f key hf t).cons₂ _

theorem printEnumDefinitions_perm {l₁ l₂ : List EnumDef} (h : l₁.Perm l₂)
    (hnd : (l₂.map EnumDef.name).Nodup) : printEnumDefinitions l₁ = printEnumDefinitions l₂ := by
  unfold printEnumDefinitions
  rw [sortByName_congr EnumDef.name h hnd]

theorem printInputObjectDefinitions_perm {l₁ l₂ : List InputObjectDef} (h : l₁.Perm l₂)
    (hnd : (l₂.map InputObjectDef.name).Nodup) :
    printInputObjectDefinitions l₁ = printInputObjectDefinitions l₂ := by
  unfold printInputObjectDefinitions
  rw [sortByName_congr InputObjectDef.name h hnd]

theorem printInterfaceDefinitions_perm {l₁ l₂ : List InterfaceDef} (h : l₁.Perm l₂)
    (hnd : (l₂.map InterfaceDef.name).Nodup) :
    printInterfaceDefinitions l₁ = printInterfaceDefinitions l₂ := by
  unfold printInterfaceDefinitions
  rw [sortByName_congr InterfaceDef.name h hnd]

theorem printObjectDefinitions_perm {l₁ l₂ : List ObjectDef} (h : l₁.Perm l₂)
    (hnd : (l₂.map ObjectDef.name).Nodup) :
    printObjectDefinitions l₁ = printObjectDefinitions l₂ := by
  unfold printObjectDefinitions
  rw [sortByName_congr ObjectDef.name h hnd]

theorem printUnionDefinitions_perm {l₁ l₂ : List UnionDef} (h : l₁.Perm l₂)
    (hnd : (l₂.map UnionDef.name).Nodup) :
    printUnionDefinitions l₁ = printUnionDefinitions l₂ := by
  unfold printUnionDefinitions
  rw [sortByName_congr UnionDef.name h hnd]

theorem printCustomScalars_perm {l₁ l₂ : List ScalarDef} (h : l₁.Perm l₂)
    (hnd : (l₂.map ScalarDef.name).Nodup) :
    printCustomScalars l₁ = printCustomScalars l₂ := by
  unfold printCustomScalars
  rw [sortByName_congr ScalarDef.name h hnd]

theorem printFieldDefinitions_perm {m₁ m₂ : FieldDefinitionMap} (h : m₁.Perm m₂)
    (hnd : (m₂.map Prod.fst).Nodup) :
    printFieldDefinitions m₁ = printFieldDefinitions m₂ := by
  unfold printFieldDefinitions
  rw [sortStrings_congr (h.map Prod.fst) hnd]
  exact congrArg (Option.map concatAll)
    (mapMOption_congr (fun k _ => by rw [lookupAssoc_perm h hnd k]))

theorem printInputObjectFieldDefinitions_perm {m₁ m₂ : InputObjectFieldMap} (h : m₁.Perm m₂)
    (hnd : (m₂.map Prod.fst).Nodup) :
    printInputObjectFieldDefinitions m₁ = printInputObjectFieldDefinitions m₂ := by
  unfold printInputObjectFieldDefinitions
  rw [sortStrings_congr (h.map Prod.fst) hnd]
  exact congrArg (Option.map concatAll)
    (mapMOption_congr (fun k _ => by rw [lookupAssoc_perm h hnd k]))

theorem PrintSchema_typeMap_perm (s : Schema) (o : PrinterOptions)
    {tm' : List (String × GqlType)} (hperm : tm'.Perm s.typeMap)
    (hnd : (s.typeMap.map (fun p => p.2.tname)).Nodup) :
    PrintSchema { s with typeMap := tm' } o = PrintSchema s o := by
  have henum : printEnumDefinitions (schemaEnums tm') =
      printEnumDefinitions (schemaEnums s.typeMap) := by
    apply printEnumDefinitions_perm (hperm.filterMap _)
    exact List.Nodup.sublist
      (partition_names_sublist enumOfType EnumDef.name (fun t b ht => enumOfType_name ht) s.typeMap) hnd
  have hinput : printInputObjectDefinitions (schemaInputObjects tm') =
      printInputObjectDefinitions (schemaInputObjects s.typeMap) := by
    apply printInputObjectDefinitions_perm (hperm.filterMap _)
    exact List.Nodup.sublist
      (partition_names_sublist inputObjectOfType InputObjectDef.name (fun t b ht => inputObjectOfType_name ht) s.typeMap) hnd
  have hintf : printInterfaceDefinitions (schemaInterfaces tm') =
      printInterfaceDefinitions (schemaInterfaces s.typeMap) := by
    apply printInterfaceDefinitions_perm (hperm.filterMap _)
    exact List.Nodup.sublist
      (partition_names_sublist interfaceOfType InterfaceDef.name (fun t b ht => interfaceOfType_name ht) s.typeMap) hnd
  have hobj : printObjectDefinitions (schemaObjects tm') =
      printObjectDefinitions (schemaObjects s.typeMap) := by
    apply printObjectDefinitions_perm (hperm.filterMap _)
    exact List.Nodup.sublist
      (partition_names_sublist objectOfType ObjectDef.name (fun t b ht => objectOfType_name ht) s.typeMap) hnd
  have hunion : printUnionDefinitions (schemaUnions tm') =
      printUnionDefinitions (schemaUnions s.typeMap) := by
    apply printUnionDefinitions_perm (hperm.filterMap _)
    exact List.Nodup.sublist
      (partition_names_sublist unionOfType UnionDef.name (fun t b ht => unionOfType_name ht) s.typeMap) hnd
  have hscalar : printCustomScalars (schemaScalars tm') =
      printCustomScalars (schemaScalars s.typeMap) := by
    apply printCustomScalars_perm (hperm.filterMap _)
    exact List.Nodup.sublist
      (partition_names_sublist scalarOfType ScalarDef.name (fun t b ht => scalarOfType_name ht) s.typeMap) hnd
  unfold PrintSchema
  unfold schemaEnums at henum
  unfold schemaInputObjects at hinput
  unfold schemaInterfaces at hintf
  unfold schemaObjects at hobj
  unfold schemaUnions at hunion
  unfold schemaScalars at hscalar
  unfold schemaEnums schemaInputObjects schemaInterfaces schemaObjects schemaUnions schemaScalars
  simp only []
  rw [henum, hinput, hintf, hobj, hunion, hscalar]
  rfl

/-! ## Claims -/

/-- C1: PrintSchema is deterministic and iteration-order independent: for any
schema and options, two invocations agree; permuting the iteration order of
the type registry (whose type names, being map keys, are distinct) leaves the
output unchanged; and permuting any name-keyed field map (object/interface
field maps and input-object field maps) leaves its printed form unchanged,
because types, fields, directives, enum values and union members are each
emitted sorted by name. -/
theorem printSchema_deterministic_and_order_independent
    (s : Schema) (o : PrinterOptions)
    (tm' : List (String × GqlType)) (hperm : tm'.Perm s.typeMap)
    (hnd : (s.typeMap.map (fun p => p.2.tname)).Nodup)
    (m m' : FieldDefinitionMap) (hm : m'.Perm m) (hmk : (m.map Prod.fst).Nodup)
    (im im' : InputObjectFieldMap) (him : im'.Perm im)
    (himk : (im.map Prod.fst).Nodup) :
    PrintSchema s o = PrintSchema s o ∧
    PrintSchema { s with typeMap := tm' } o = PrintSchema s o ∧
    printFieldDefinitions m' = printFieldDefinitions m ∧
    printInputObjectFieldDefinitions im' = printInputObjectFieldDefinitions im :=
  ⟨rfl, PrintSchema_typeMap_perm s o hperm hnd, printFieldDefinitions_perm hm hmk,
    printInputObjectFieldDefinitions_perm him himk⟩

def c1Field (n : String) : FieldDefinition :=
  { name := n, description := "", args := [], type := TypeRef.named "String",
    deprecationReason := "", appliedDirectives := [] }

def c1InputField (n : String) : InputFieldDef :=
  { name := n, description := "", type := TypeRef.named "Int", appliedDirectives := [] }

def c1ScalarA : ScalarDef :=
  { name := "A", description := "", appliedDirectives := [] }

def c1ObjectB : ObjectDef :=
  { name := "B", description := "", interfaces := [], fields := [("f", c1Field "f")],
    appliedDirectives := [], extend := false }

def c1Schema : Schema :=
  { query := none, mutation := none, subscription := none,
    typeMap := [("A", GqlType.scalar c1ScalarA), ("B", GqlType.object c1ObjectB)],
    directives := [], appliedDirectives := [] }

def c1TypeMapPermuted : List (String × GqlType) :=
  [("B", GqlType.object c1ObjectB), ("A", GqlType.scalar c1ScalarA)]

def c1Options : PrinterOptions :=
  { IncludeDirectiveDefinition := false, IncludeSchemaDefinition := false }

theorem printSchema_order_independence_witness :
    PrintSchema c1Schema c1Options = PrintSchema c1Schema c1Options ∧
    PrintSchema { c1Schema with typeMap := c1TypeMapPermuted } c1Options =
      PrintSchema c1Schema c1Options ∧
    printFieldDefinitions [("b", c1Field "b"), ("a", c1Field "a")] =
      printFieldDefinitions [("a", c1Field "a"), ("b", c1Field "b")] ∧
    printInputObjectFieldDefinitions [("y", c1InputField "y"), ("x", c1InputField "x")] =
      printInputObjectFieldDefinitions [("x", c1InputField "x"), ("y", c1InputField "y")] :=
  printSchema_deterministic_and_order_independent c1Schema c1Options
    c1TypeMapPermuted
    (by simp only [c1TypeMapPermuted, c1Schema]
        exact List.Perm.swap _ _ _)
    (by simp only [c1Schema, List.map_cons, List.map_nil, GqlType.tname]
        decide)
    [("a", c1Field "a"), ("b", c1Field "b")] [("b", c1Field "b"), ("a", c1Field "a")]
    (List.Perm.swap _ _ _) (by decide)
    [("x", c1InputField "x"), ("y", c1InputField "y")]
    [("y", c1InputField "y"), ("x", c1InputField "x")]
    (List.Perm.swap _ _ _) (by decide)

/-- C7: a non-empty deprecation reason is rendered as a synthesized
`@deprecated(reason: "...")` directive application prefixed to the rendering
of all other applied directives of the element, and with no other applied
directives the rendering is exactly that one directive. -/
theorem deprecation_rendered_as_leading_directive
    (ads : List AppliedDirective) (reason : String) (h : reason ≠ "") :
    printAppliedDirectives ads reason =
      (printAppliedDirectives ads "").map
        (fun rest => " @deprecated(reason: " ++ goQuote reason ++ ")" ++ rest) ∧
    (ads = [] → printAppliedDirectives ads reason =
      some (" @deprecated(reason: " ++ goQuote reason ++ ")")) := by
  have hdep : deprecatedDirectiveNote reason =
      " @deprecated(reason: " ++ goQuote reason ++ ")" := by
    unfold deprecatedDirectiveNote
    rw [if_neg h]
  have hzero : deprecatedDirectiveNote "" = "" := rfl
  constructor
  · unfold printAppliedDirectives
    by_cases he : ads.isEmpty
    · rw [if_pos he, if_pos he, hdep, hzero]
      simp [string_append_empty]
    · rw [if_neg he, if_neg he]
      cases hmp : mapMOption printAppliedDirective (sortAppliedDirectives ads) with
      | none => simp [hmp]
      | some parts => simp [hmp, hdep, hzero, string_empty_append]
  · intro hads
    subst hads
    unfold printAppliedDirectives
    simp [hdep]

theorem deprecation_rendering_witness :
    printAppliedDirectives [] "use X" =
      (printAppliedDirectives [] "").map
        (fun rest => " @deprecated(reason: " ++ goQuote ("use X") ++ ")" ++ rest) ∧
    ([] = ([] : List AppliedDirective) → printAppliedDirectives [] "use X" =
      some (" @deprecated(reason: " ++ goQuote ("use X") ++ ")")) :=
  deprecation_rendered_as_leading_directive [] ("use X") (by decide)

/-- C4 counterexample: the claim says a list-valued argument of any length,
including length one, renders bracketed; the code renders a one-element list
bare (`len(value) > 1` chooses the bracket), so `import: ["a"]` does not
round-trip: it prints as `import: "a"`. -/
theorem singleton_list_argument_renders_bare :
    printAppliedDirective
      { name := "link", args := [{ name := "import", value := ArgValue.list [ArgValue.str "a"] }] } =
      some ("@link(import: \"a\")") ∧
    ("@link(import: \"a\")" : String) ≠ "@link(import: [\"a\"])" :=
  ⟨rfl, by decide⟩

/-- C4 amended: an applied-directive argument value that flattens to two or
more printed atoms renders as a bracketed comma list; a value that flattens
to exactly one atom (a plain string, boolean or number, or a one-element
list) renders that atom bare; strings are quoted, booleans and numbers are
bare; nested lists are flattened into a single bracket; and
`@key(fields: "id", resolvable: true)` round-trips exactly. -/
theorem applied_directive_argument_rendering
    (arg : AppliedDirectiveArgument) (vs : List String)
    (hv : printAppliedDirectiveArgumentValue arg.value = some vs) :
    (∀ v, vs = [v] → printAppliedDirectiveArgument arg = some (arg.name ++ ": " ++ v)) ∧
    (2 ≤ vs.length →
      printAppliedDirectiveArgument arg = some (arg.name ++ ": [" ++ joinSep ", " vs ++ "]")) ∧
    printAppliedDirectiveArgumentValue (ArgValue.str "id") = some [goQuote ("id")] ∧
    printAppliedDirectiveArgumentValue (ArgValue.boolean true) = some ["true"] ∧
    printAppliedDirectiveArgumentValue
      (ArgValue.list [ArgValue.list [ArgValue.str "a"], ArgValue.str "b"]) =
      some ["\"a\"", "\"b\""] ∧
    printAppliedDirective (KeyAppliedDirective ("id") true) =
      some ("@key(fields: \"id\", resolvable: true)") := by
  refine ⟨?_, ?_, rfl, rfl, rfl, rfl⟩
  · intro v hvs
    subst hvs
    unfold printAppliedDirectiveArgument
    rw [hv]
  · intro hlen
    unfold printAppliedDirectiveArgument
    rw [hv]
    rcases vs with _ | ⟨v, rest⟩
    · simp at hlen
    · rcases rest with _ | ⟨w, rest'⟩
      · simp at hlen
      · rfl

theorem applied_directive_argument_rendering_witness :
    (∀ v, (["\"id\""] : List String) = [v] →
      printAppliedDirectiveArgument { name := "fields", value := ArgValue.str "id" } =
        some ("fields" ++ ": " ++ v)) ∧
    (2 ≤ (["\"a\"", "\"b\""] : List String).length →
      printAppliedDirectiveArgument
        { name := "import", value := ArgValue.list [ArgValue.str "a", ArgValue.str "b"] } =
        some ("import" ++ ": [" ++ joinSep ", " ["\"a\"", "\"b\""] ++ "]")) ∧
    printAppliedDirectiveArgumentValue (ArgValue.str "id") = some [goQuote ("id")] ∧
    printAppliedDirectiveArgumentValue (ArgValue.boolean true) = some ["true"] ∧
    printAppliedDirectiveArgumentValue
      (ArgValue.list [ArgValue.list [ArgValue.str "a"], ArgValue.str "b"]) =
      some ["\"a\"", "\"b\""] ∧
    printAppliedDirective (KeyAppliedDirective ("id") true) =
      some ("@key(fields: \"id\", resolvable: true)") :=
  ⟨(applied_directive_argument_rendering
      { name := "fields", value := ArgValue.str "id" } ["\"id\""] rfl).1,
   (applied_directive_argument_rendering
      { name := "import", value := ArgValue.list [ArgValue.str "a", ArgValue.str "b"] }
      ["\"a\"", "\"b\""] rfl).2.1,
   rfl, rfl, rfl, rfl⟩

def c5Object : ObjectDef :=
  { name := "Obj", description := "", interfaces := ["B", "A"], fields := [],
    appliedDirectives := [], extend := false }

/-- C5 counterexample: an object declaring interfaces `[B, A]` prints
`implements B, A` — declaration order, not sorted alphabetically as the
claim states. -/
theorem implemented_interfaces_not_sorted :
    printObjectDefinitions [c5Object] = some ("type Obj implements B, A \x7b\n\x7d\n\n") ∧
    ("type Obj implements B, A \x7b\n\x7d\n\n" : String) ≠
      "type Obj implements A, B \x7b\n\x7d\n\n" :=
  ⟨rfl, by decide⟩

theorem sortByName_singleton (key : α → String) (a : α) : sortByName key [a] = [a] := rfl

/-- C5 amended: for every object with a non-empty implemented-interface list,
the printer emits the interface names joined with `, ` in declaration order
(the order of `Interfaces()`), not sorted. -/
theorem implemented_interfaces_declaration_order
    (o : ObjectDef) (h : ¬ o.interfaces.isEmpty)
    (had : appliedsOK o.appliedDirectives = true) (hfm : fieldMapOK o.fields = true) :
    ∃ ad flds, printAppliedDirectives o.appliedDirectives "" = some ad ∧
      printFieldDefinitions o.fields = some flds ∧
      printObjectDefinitions [o] =
        some (printDescription o.description 0 ++ "type " ++ o.name ++
          " implements " ++ joinSep ", " o.interfaces ++ ad ++ " \x7b\n" ++ flds ++ "\x7d\n\n") := by
  rcases Option.isSome_iff_exists.mp (printAppliedDirectives_total ("") had) with ⟨ad, hA⟩
  rcases Option.isSome_iff_exists.mp (printFieldDefinitions_total hfm) with ⟨flds, hF⟩
  refine ⟨ad, flds, hA, hF, ?_⟩
  unfold printObjectDefinitions
  rw [sortByName_singleton]
  simp [mapMOption, printObjectDefinition, hA, hF, h, concatAll, string_append_empty,
    String.append_assoc]

theorem implemented_interfaces_declaration_order_witness :
    ∃ ad flds, printAppliedDirectives c5Object.appliedDirectives "" = some ad ∧
      printFieldDefinitions c5Object.fields = some flds ∧
      printObjectDefinitions [c5Object] =
        some (printDescription c5Object.description 0 ++ "type " ++ c5Object.name ++
          " implements " ++ joinSep ", " c5Object.interfaces ++ ad ++ " \x7b\n" ++ flds ++ "\x7d\n\n") :=
  implemented_interfaces_declaration_order c5Object (by decide) rfl rfl

def c3BadSchema : Schema :=
  { query := some defaultQueryObject, mutation := none, subscription := none,
    typeMap := [], directives := [],
    appliedDirectives := [LinkAppliedDirective ("u") []] }

/-- C3 counterexample: a well-formed schema carrying a `@link` applied
directive with an empty import list makes `PrintSchema` panic
(`value[0]` on the empty printed-value slice), modelled as `none` — the
printer is not total over such schemas. -/
theorem printSchema_panics_on_empty_list_argument :
    PrintSchema c3BadSchema DefaultPrinterOptions = none := rfl

/-- C3 amended: PrintSchema is total over well-formed schemas whose
applied-directive argument values are printable — each value is non-nil and
flattens to at least one printed atom (`schemaOK`) — and which carry a query
root; at an applied directive with a nil argument value or one flattening to
zero atoms (for example a `@link` with an empty import list) it panics. -/
theorem printSchema_total_on_printable_schemas
    (s : Schema) (o : PrinterOptions) (hok : schemaOK s = true) (hq : s.query.isSome) :
    ∃ out, PrintSchema s o = some out :=
  Option.isSome_iff_exists.mp (PrintSchema_total o hok hq)

def c3GoodSchema : Schema :=
  { query := some defaultQueryObject, mutation := none, subscription := none,
    typeMap := [("Query", GqlType.object defaultQueryObject)], directives := [],
    appliedDirectives := [federationLinkAppliedDirective] }

theorem printSchema_total_witness :
    ∃ out, PrintSchema c3GoodSchema DefaultPrinterOptions = some out :=
  printSchema_total_on_printable_schemas c3GoodSchema DefaultPrinterOptions (by decide) rfl

/-- C6 counterexample: `link` is one of the ten federation directive
definitions the composer appends, but neither `@link` nor `link` appears in
the import list of the appended `@link` applied directive — the import
argument holds nine `@`-prefixed directive names plus `FieldSet` (ten
entries), not all ten directive names plus `FieldSet` (eleven). -/
theorem federation_link_import_misses_link :
    LinkDirectiveDefinition ∈ federationDirectiveDefinitions ∧
    LinkDirectiveDefinition.name = "link" ∧
    federationLinkAppliedDirective.args =
      [{ name := "url", value := ArgValue.str "https://specs.apollo.dev/federation/v2.1" },
       { name := "import", value := ArgValue.list (List.map ArgValue.str
         ["@composeDirective", "@external", "@inaccessible", "@key", "@override",
          "@provides", "@requires", "@shareable", "@tag", "FieldSet"]) }] ∧
    ("@link" : String) ∉ ["@composeDirective", "@external", "@inaccessible", "@key",
      "@override", "@provides", "@requires", "@shareable", "@tag", "FieldSet"] ∧
    ("link" : String) ∉ ["@composeDirective", "@external", "@inaccessible", "@key",
      "@override", "@provides", "@requires", "@shareable", "@tag", "FieldSet"] ∧
    (["@composeDirective", "@external", "@inaccessible", "@key", "@override",
      "@provides", "@requires", "@shareable", "@tag", "FieldSet"] : List String).length = 10 ∧
    federationDirectiveDefinitions.length = 10 :=
  ⟨by simp [federationDirectiveDefinitions], rfl, rfl, by decide, by decide, rfl, rfl⟩

/-- C6 amended: the composer appends exactly one `@link` applied directive to
the schema block's applied-directive list, whose `url` argument is the fixed
federation v2.1 specification URL and whose `import` argument lists the
`@`-prefixed names of nine of the ten appended federation directives (all but
`link` itself) plus the `FieldSet` scalar name. -/
theorem federation_link_applied_directive_appended (config : FederatedSchemaConfig) :
    (augmentConfig config).appliedDirectives =
      config.schemaConfig.appliedDirectives ++ [federationLinkAppliedDirective] ∧
    federationLinkAppliedDirective.name = "link" ∧
    federationLinkAppliedDirective.args =
      [{ name := "url", value := ArgValue.str "https://specs.apollo.dev/federation/v2.1" },
       { name := "import", value := ArgValue.list (List.map ArgValue.str
         (((federationDirectiveDefinitions.filter (fun d => d.name ≠ "link")).map
            (fun d => "@" ++ d.name)) ++ ["FieldSet"])) }] := by
  refine ⟨?_, rfl, by rfl⟩
  cases hq : config.schemaConfig.query <;> simp [augmentConfig, hq]

def composerOkValidate : SchemaConfig → Option String := fun _ => none

def c8BadConfig : FederatedSchemaConfig :=
  { schemaConfig :=
    { query := none, mutation := none, subscription := none, types := [], directives := [],
      appliedDirectives := [{ name := "bad", args := [{ name := "x", value := ArgValue.list [] }] }] } }

/-- C8 counterexample: the underlying build succeeds on this configuration,
yet composition still aborts — the `PrintSchema` call inside
`NewFederatedSchema` panics on the caller's applied directive whose argument
value is an empty list. Build failure is therefore not the only failure mode
of composition. -/
theorem composition_panics_outside_build :
    newSchema composerOkValidate (augmentConfig c8BadConfig) =
      Except.ok (schemaOfConfig (augmentConfig c8BadConfig)) ∧
    NewFederatedSchema composerOkValidate c8BadConfig =
      Except.error ("runtime error: index out of range") :=
  ⟨rfl, rfl⟩

/-- C8 amended: if the underlying schema build fails structural validation,
`NewFederatedSchema` aborts fatally (a panic wrapping the build error) rather
than returning an error value or a partially built schema; composition can
additionally abort when the embedded SDL printing step panics on a malformed
applied-directive argument value. -/
theorem composition_fatal_on_build_failure (validate : SchemaConfig → Option String)
    (config : FederatedSchemaConfig) (e : String)
    (h : newSchema validate (augmentConfig config) = Except.error e) :
    NewFederatedSchema validate config = Except.error ("failure to create schema" ++ e) := by
  unfold NewFederatedSchema
  rw [h]

def c8FailValidate : SchemaConfig → Option String := fun _ => some ("boom")

theorem composition_fatal_on_build_failure_witness :
    NewFederatedSchema c8FailValidate c8BadConfig =
      Except.error ("failure to create schema" ++ "boom") :=
  composition_fatal_on_build_failure c8FailValidate c8BadConfig ("boom") rfl

/-- C10: whenever NewFederatedSchema returns rather than aborting, the
returned error value is nil: the only error source (the underlying build) is
converted into a fatal panic, so no caller can observe a schema together with
a non-nil error. -/
theorem composition_returned_error_is_nil (validate : SchemaConfig → Option String)
    (config : FederatedSchemaConfig) (s : Schema) (e : Option String)
    (h : NewFederatedSchema validate config = Except.ok (s, e)) : e = none := by
  unfold NewFederatedSchema at h
  cases hb : newSchema validate (augmentConfig config) with
  | error e' =>
    rw [hb] at h
    simp at h
  | ok s₀ =>
    rw [hb] at h
    cases hq : s₀.query with
    | none =>
      simp only [hq] at h
      simp at h
    | some q =>
      simp only [hq] at h
      split at h
      · simp at h
      · injection h with h1
        exact ((Prod.mk.injEq _ _ _ _).mp h1).2.symm

def c10Config : FederatedSchemaConfig :=
  { schemaConfig :=
    { query := none, mutation := none, subscription := none, types := [], directives := [],
      appliedDirectives := [] } }

def c10ResultSchema : Schema :=
  match NewFederatedSchema composerOkValidate c10Config with
  | Except.ok (s, _) => s
  | Except.error _ => schemaOfConfig (augmentConfig c10Config)

theorem composition_returned_error_is_nil_witness : (none : Option String) = none :=
  composition_returned_error_is_nil composerOkValidate c10Config c10ResultSchema none rfl

/-- The `_Entity` union as built over the synthesized placeholder. -/
def entityPlaceholderUnion : UnionDef :=
  { name := "_Entity", description := "", types := [extendHelperObject],
    appliedDirectives := [] }

/-- C2: when the built schema contains no Object type that is non-extend and
carries an applied `@key` directive, the `_Entity` union registered by the
composer has exactly one member — the synthesized `_ExtendHelper` placeholder,
whose single field `id` carries the applied `@external` directive — so the
union is never empty. -/
theorem entity_union_gets_placeholder_when_no_entities
    (validate : SchemaConfig → Option String) (config : FederatedSchemaConfig)
    (s₀ : Schema) (q : ObjectDef) (s' : Schema) (e : Option String)
    (hbuild : newSchema validate (augmentConfig config) = Except.ok s₀)
    (hq : s₀.query = some q)
    (hqn : q.name ≠ "_Entity")
    (hno : findEntityTypes s₀ = [])
    (h : NewFederatedSchema validate config = Except.ok (s', e)) :
    ∃ u : UnionDef,
      lookupAssoc s'.typeMap ("_Entity") = some (GqlType.union u) ∧
      u.types = [extendHelperObject] ∧
      u.types ≠ [] ∧
      lookupAssoc extendHelperObject.fields ("id") =
        some { name := "id", description := "", args := [],
               type := TypeRef.nonNull (TypeRef.named "ID"), deprecationReason := "",
               appliedDirectives := [ExternalAppliedDirective] } := by
  have hne : ("_Entity" : String) ≠ q.name := fun hh => hqn hh.symm
  unfold NewFederatedSchema at h
  rw [hbuild] at h
  simp only [hno, hq, List.isEmpty_nil, if_pos] at h
  split at h
  · simp at h
  · injection h with h1
    have hpair := (Prod.mk.injEq _ _ _ _).mp h1
    refine ⟨entityPlaceholderUnion, ?_, rfl, List.cons_ne_nil _ _, rfl⟩
    rw [← hpair.1]
    rw [lookupAssoc_setAssoc_ne _ _ hne, lookupAssoc_setAssoc_ne _ _ hne,
      lookupAssoc_setAssoc_self]
    rfl

def c2Config : FederatedSchemaConfig :=
  { schemaConfig :=
    { query := none, mutation := none, subscription := none, types := [], directives := [],
      appliedDirectives := [] } }

def c2BuiltSchema : Schema := schemaOfConfig (augmentConfig c2Config)

def c2ResultSchema : Schema :=
  match NewFederatedSchema composerOkValidate c2Config with
  | Except.ok (s, _) => s
  | Except.error _ => c2BuiltSchema

theorem entity_union_placeholder_witness :
    ∃ u : UnionDef,
      lookupAssoc c2ResultSchema.typeMap ("_Entity") = some (GqlType.union u) ∧
      u.types = [extendHelperObject] ∧
      u.types ≠ [] ∧
      lookupAssoc extendHelperObject.fields ("id") =
        some { name := "id", description := "", args := [],
               type := TypeRef.nonNull (TypeRef.named "ID"), deprecationReason := "",
               appliedDirectives := [ExternalAppliedDirective] } :=
  entity_union_gets_placeholder_when_no_entities composerOkValidate c2Config
    c2BuiltSchema defaultQueryObject c2ResultSchema none rfl rfl (by decide) rfl rfl

/-- C9 amended: when the caller supplies a Query root object, the composer
mutates that object, adding the `_service` and `_entities` fields; every
pre-existing field whose name is not `_service` or `_entities` is left
unchanged (a caller field named `_service` or `_entities` is overwritten),
and the query root of the returned schema is that updated object. -/
theorem composition_adds_fields_to_caller_query
    (validate : SchemaConfig → Option String) (config : FederatedSchemaConfig)
    (q₀ : ObjectDef) (s' : Schema) (e : Option String)
    (hq : config.schemaConfig.query = some q₀)
    (h : NewFederatedSchema validate config = Except.ok (s', e)) :
    ∃ q' : ObjectDef, s'.query = some q' ∧ q'.name = q₀.name ∧
      lookupAssoc q'.fields ("_service") = some serviceField ∧
      lookupAssoc q'.fields ("_entities") = some entitiesField ∧
      ∀ k, k ≠ "_service" → k ≠ "_entities" →
        lookupAssoc q'.fields k = lookupAssoc q₀.fields k := by
  have hQA : (augmentConfig config).query =
      some { q₀ with fields := setAssoc q₀.fields ("_service") serviceField } := by
    simp [augmentConfig, hq]
  unfold NewFederatedSchema at h
  unfold newSchema at h
  cases hv : validate (augmentConfig config) with
  | some err =>
    rw [hv] at h
    simp at h
  | none =>
    rw [hv] at h
    have hsq : (schemaOfConfig (augmentConfig config)).query =
        some { q₀ with fields := setAssoc q₀.fields ("_service") serviceField } := by
      rw [show (schemaOfConfig (augmentConfig config)).query = (augmentConfig config).query
        from rfl, hQA]
    simp only [hsq] at h
    split at h
    · simp at h
    · injection h with h1
      have hpair := (Prod.mk.injEq _ _ _ _).mp h1
      obtain ⟨hs, _⟩ := hpair
      subst hs
      refine ⟨_, rfl, rfl, ?_, ?_, ?_⟩
      · exact lookupAssoc_setAssoc_self _ _ _
      · rw [lookupAssoc_setAssoc_ne _ _ (by decide : ("_entities" : String) ≠ "_service")]
        exact lookupAssoc_setAssoc_self _ _ _
      · intro k hk1 hk2
        rw [lookupAssoc_setAssoc_ne _ _ hk1, lookupAssoc_setAssoc_ne _ _ hk2,
          lookupAssoc_setAssoc_ne _ _ hk1]

def c9CallerQuery : ObjectDef :=
  { name := "Query", description := "", interfaces := [],
    fields := [("product", c1Field "product")], appliedDirectives := [], extend := false }

def c9Config : FederatedSchemaConfig :=
  { schemaConfig :=
    { query := some c9CallerQuery, mutation := none, subscription := none, types := [],
      directives := [], appliedDirectives := [] } }

def c9ResultSchema : Schema :=
  match NewFederatedSchema composerOkValidate c9Config with
  | Except.ok (s, _) => s
  | Except.error _ => schemaOfConfig (augmentConfig c9Config)

theorem composition_adds_fields_witness :
    ∃ q' : ObjectDef, c9ResultSchema.query = some q' ∧ q'.name = c9CallerQuery.name ∧
      lookupAssoc q'.fields ("_service") = some serviceField ∧
      lookupAssoc q'.fields ("_entities") = some entitiesField ∧
      ∀ k, k ≠ "_service" → k ≠ "_entities" →
        lookupAssoc q'.fields k = lookupAssoc c9CallerQuery.fields k :=
  composition_adds_fields_to_caller_query composerOkValidate c9Config c9CallerQuery
    c9ResultSchema none rfl rfl

def customServiceField : FieldDefinition :=
  { name := "_service", description := "", args := [], type := TypeRef.named "String",
    deprecationReason := "", appliedDirectives := [] }

def c9ClashQuery : ObjectDef :=
  { name := "Query", description := "", interfaces := [],
    fields := [("_service", customServiceField)], appliedDirectives := [], extend := false }

def c9ClashConfig : FederatedSchemaConfig :=
  { schemaConfig :=
    { query := some c9ClashQuery, mutation := none, subscription := none, types := [],
      directives := [], appliedDirectives := [] } }

def c9ClashResultQueryFields : FieldDefinitionMap :=
  match NewFederatedSchema composerOkValidate c9ClashConfig with
  | Except.ok (s, _) =>
    match s.query with
    | some q => q.fields
    | none => []
  | Except.error _ => []

/-- C9 counterexample: a caller Query object with a pre-existing `_service`
field does not keep it unchanged — composition overwrites it with the
federation `_service` field, so not every pre-existing field of the caller's
Query object survives. -/
theorem composition_overwrites_caller_service_field :
    lookupAssoc c9ClashQuery.fields ("_service") = some customServiceField ∧
    lookupAssoc c9ClashResultQueryFields ("_service") = some serviceField ∧
    serviceField ≠ customServiceField :=
  ⟨rfl, rfl, fun hEq => by
    have htype : serviceField.type = customServiceField.type :=
      congrArg FieldDefinition.type hEq
    rw [show serviceField.type = TypeRef.named "_Service" from rfl,
      show customServiceField.type = TypeRef.named "String" from rfl] at htype
    injection htype with hn
    exact absurd hn (by decide)⟩
